import Mathlib

set_option maxRecDepth 100000

/-!
Shallow embedding of the accounting / cache-refresh core of the
ore-hq-server repository (files `src/app_database.rs`,
`src/ore_utils.rs`, `src/systems/cache_update_system.rs`) and proofs of
the specification claims about it.

Conventions used throughout:
* database tables are embedded as Lean lists of row structures;
* unsigned machine integers (`u64`, row counts, balances) are embedded
  as `Nat` and signed ids (`i32`, `i64`) as `Int`; none of the verified
  operations can wrap (additions go into unsigned SQL columns whose
  overflow would fail the statement, not wrap), so no modular reduction
  is modelled;
* fallible Rust paths return `Except`/`Option`; a Rust `panic!`
  (`expect`, out-of-bounds indexing) is a distinguished constructor of
  `RustOutcome`, kept separate from ordinarily returned errors.
-/

namespace OreHQServer

/-- Outcome of running a piece of Rust code: either it returns a value
or the thread panics with a message (`expect`, index out of bounds). -/
inductive RustOutcome (α : Type) where
  | returns (a : α) : RustOutcome α
  | panics (msg : String) : RustOutcome α
deriving DecidableEq

/-- Error enum `AppDatabaseError` of `src/app_database.rs`. -/
inductive AppDatabaseError where
  | FailedToGetConnectionFromPool : AppDatabaseError
  | FailedToUpdateRow : AppDatabaseError
  | FailedToInsertRow : AppDatabaseError
  | InteractionFailed : AppDatabaseError
  | QueryFailed : AppDatabaseError
deriving DecidableEq

/-! ### Row types (module `models`, shapes as used by the SQL in
`src/app_database.rs` and described by the spec's data model) -/

/-- A row of the `rewards` table: identity, owning miner, claimable
balance (unsigned token units). -/
structure RewardRow where
  id : Int
  miner_id : Int
  balance : Nat
deriving DecidableEq

/-- `models::UpdateReward`: one (miner, delta) pair consumed by
`update_rewards`; `balance` is the per-miner reward delta. -/
structure UpdateReward where
  miner_id : Int
  balance : Nat
deriving DecidableEq

/-- A row of the `stake_accounts` table (fields used by the verified
operations). -/
structure StakeAccountRow where
  id : Int
  pool_id : Int
  staker_pubkey : String
  mint_pubkey : String
  stake_pda : String
  staked_balance : Nat
  rewards_balance : Nat
  total_rewards_earned : Nat
deriving DecidableEq

/-- `models::UpdateStakeAccount`: one (stake_pda, new staked balance)
pair consumed by `update_stake_accounts_staked_balance`. -/
structure UpdateStakeAccount where
  stake_pda : String
  staked_balance : Nat
deriving DecidableEq

/-- `models::UpdateStakeAccountRewards`: one (stake_pda, rewards delta)
pair consumed by `update_stake_accounts_rewards`. -/
structure UpdateStakeAccountRewards where
  stake_pda : String
  rewards_balance : Nat
deriving DecidableEq

/-- A row of the `miners` table. -/
structure MinerRow where
  id : Int
  pubkey : String
  enabled : Bool
deriving DecidableEq

/-- A row of the `submissions_2` table as read by
`get_submission_id_with_nonce` (`SubmissionWithId` carries the id). -/
structure SubmissionRow where
  id : Int
  nonce : Nat
deriving DecidableEq

/-! ### Cache model (`src/systems/cache_update_system.rs`)

Each cache is a `RwLock`-guarded pair of the published item and the
`Instant` of its last update; time is embedded as `Nat`. -/

/-- The snapshot held by one cache: published item plus the time of the
last successful update (`writer.item` / `writer.last_updated_at`). -/
structure CachedItem (α : Type) where
  item : α
  last_updated_at : Nat
deriving DecidableEq

/-- Refresh intervals from `src/systems/cache_update_system.rs`
(seconds). -/
def CACHED_BOOST_MULTIPLIER_UPDATE_INTERVAL : Nat := 15

/-- `CACHED_LAST_CHALLENGE_SUBMISSIONS_UPDATE_INTERVAL`. -/
def CACHED_LAST_CHALLENGE_SUBMISSIONS_UPDATE_INTERVAL : Nat := 15

/-- `CACHED_CHALLENGES_UPDATE_INTERVAL`. -/
def CACHED_CHALLENGES_UPDATE_INTERVAL : Nat := 15

/-- `CACHED_LATEST_BLOCKHASH_UPDATE_INTERVAL`. -/
def CACHED_LATEST_BLOCKHASH_UPDATE_INTERVAL : Nat := 5

/-- The argument of the `tokio::time::sleep(Duration::from_secs(2000))`
call in the blockhash refresh task's failure branch, in seconds (the
adjacent log message reads "Retrying in 2 secs..."). -/
def BLOCKHASH_RETRY_SLEEP_SECS : Nat := 2000

/-- One iteration of the body of the last-challenge-submissions refresh
loop: on `Ok(submissions)` the new value and timestamp are written
through the lock; on `Err(_)` the match arm is empty and the cache is
left untouched. -/
def lastChallengeSubmissionsRefreshStep {α ε : Type} (res : Except ε α)
    (now : Nat) (c : CachedItem α) : CachedItem α :=
  match res with
  | .ok submissions => { item := submissions, last_updated_at := now }
  | .error _ => c

/-- One iteration of the body of the challenges refresh loop (same
shape as the last-challenge-submissions loop). -/
def challengesRefreshStep {α ε : Type} (res : Except ε α) (now : Nat)
    (c : CachedItem α) : CachedItem α :=
  match res with
  | .ok challenges => { item := challenges, last_updated_at := now }
  | .error _ => c

/-- One attempt of the blockhash task's inner fetch loop: on success the
serialized, base64-encoded blockhash is published (returned flag
`false` = leave the inner loop); on failure nothing is written and the
attempt is retried after a sleep (flag `true` = keep looping). -/
def latestBlockhashAttempt {β ε : Type} (encode : β → String)
    (res : Except ε β) (now : Nat) (c : CachedItem String) :
    CachedItem String × Bool :=
  match res with
  | .ok lb => ({ item := encode lb, last_updated_at := now }, false)
  | .error _ => (c, true)

/-! ### The batch CASE-over-keys UPDATE primitive
(`update_rewards`, `update_stake_accounts_staked_balance`,
`update_stake_accounts_rewards` in `src/app_database.rs`)

Each of the three operations concatenates ONE statement of the shape

  UPDATE table SET col = CASE key WHEN k1 THEN e1 ... END
  WHERE key IN (k1, ..., kn)

and submits it with a single `query.execute(conn)` call.  `batchCaseUpdate`
is the row-level semantics of that statement: a row whose key is in the
IN-list is rewritten by the expression of its first matching WHEN arm
(SQL CASE takes the first match; WHERE restricts to listed keys), every
other row is untouched.  The three operations differ only in the
per-row expression `apply`. -/

/-- Semantics of one CASE-over-keys batch UPDATE statement.  A row
passes the WHERE filter when its key occurs in the IN-list (`any`); it
is then rewritten by its first matching WHEN arm (`find?`; the `getD`
default is unreachable because WHERE guarantees a match). -/
def batchCaseUpdate {ρ κ δ : Type} [BEq κ] (key : ρ → κ)
    (apply : ρ → δ → ρ) (upd : List (κ × δ)) (t : List ρ) : List ρ :=
  t.map fun row =>
    if upd.any (fun u => u.1 == key row) then
      ((upd.find? (fun u => u.1 == key row)).map
        (fun u => apply row u.2)).getD row
    else row

/-- The single SQL string built by `update_rewards` (string
concatenation exactly as in the source). -/
def update_rewards_sql (rewards : List UpdateReward) : String :=
  "UPDATE rewards SET balance = balance + CASE miner_id " ++
  String.intercalate " "
    (rewards.map fun r =>
      "WHEN " ++ toString r.miner_id ++ " THEN " ++ toString r.balance) ++
  " END WHERE miner_id IN (" ++
  String.intercalate "," (rewards.map fun r => toString r.miner_id) ++
  ")"

/-- Effect of `update_rewards` on the `rewards` table: the submitted
statement adds each listed miner's delta onto its current balance. -/
def update_rewards_apply (rewards : List UpdateReward)
    (t : List RewardRow) : List RewardRow :=
  batchCaseUpdate (fun row => row.miner_id)
    (fun row d => { row with balance := row.balance + d })
    (rewards.map fun r => (r.miner_id, r.balance)) t

/-- Effect of `update_stake_accounts_staked_balance` on the
`stake_accounts` table: the per-row expression overwrites
`staked_balance` with the listed value (chain-truth mirror). -/
def update_stake_accounts_staked_balance_apply
    (stake_accts : List UpdateStakeAccount)
    (t : List StakeAccountRow) : List StakeAccountRow :=
  batchCaseUpdate (fun row => row.stake_pda)
    (fun row v => { row with staked_balance := v })
    (stake_accts.map fun sa => (sa.stake_pda, sa.staked_balance)) t

/-- Effect of `update_stake_accounts_rewards` on the `stake_accounts`
table: the statement's two CASE expressions add the same per-row delta
onto `rewards_balance` and onto `total_rewards_earned`. -/
def update_stake_accounts_rewards_apply
    (stake_accts : List UpdateStakeAccountRewards)
    (t : List StakeAccountRow) : List StakeAccountRow :=
  batchCaseUpdate (fun row => row.stake_pda)
    (fun row d =>
      { row with
        rewards_balance := row.rewards_balance + d
        total_rewards_earned := row.total_rewards_earned + d })
    (stake_accts.map fun sa => (sa.stake_pda, sa.rewards_balance)) t

/-- Semantics of the single-key statement
`UPDATE rewards SET balance = balance + d WHERE miner_id = k`, used to
compare the batch against per-pair sequential application. -/
def apply_single_reward (t : List RewardRow) (u : UpdateReward) :
    List RewardRow :=
  t.map fun row =>
    if u.miner_id == row.miner_id then
      { row with balance := row.balance + u.balance }
    else row

/-- The delta the batch statement's CASE assigns to key `k`:
the first WHEN arm matching `k`, `0` (no change) when `k` is unlisted. -/
def deltaFind (rewards : List UpdateReward) (k : Int) : Nat :=
  ((rewards.find? (fun r => r.miner_id == k)).map
    (fun r => r.balance)).getD 0

/-- The total delta sequential per-pair application gives key `k`:
the sum of all listed deltas for `k`. -/
def deltaSum (rewards : List UpdateReward) (k : Int) : Nat :=
  ((rewards.filter (fun r => r.miner_id == k)).map
    (fun r => r.balance)).sum

/-! ### Pointwise characterisation of the batch statement -/

/-- `update_rewards_apply` acts pointwise: every row's balance grows by
`deltaFind` of its key; rows with unlisted keys are unchanged. -/
theorem update_rewards_apply_eq_map (rewards : List UpdateReward)
    (t : List RewardRow) :
    update_rewards_apply rewards t
      = t.map (fun row =>
          { row with balance := row.balance + deltaFind rewards row.miner_id }) := by
  unfold update_rewards_apply batchCaseUpdate
  refine List.map_congr_left (fun row _ => ?_)
  induction rewards with
  | nil => rfl
  | cons r rs ih =>
    by_cases h : r.miner_id = row.miner_id
    · simp [deltaFind, h]
    · have hd : deltaFind (r :: rs) row.miner_id = deltaFind rs row.miner_id := by
        unfold deltaFind
        rw [List.find?_cons_of_neg
          (p := fun x : UpdateReward => x.miner_id == row.miner_id) _
          (by simpa using h)]
      rw [hd, List.map_cons,
        List.find?_cons_of_neg
          (p := fun u : Int × Nat => u.1 == row.miner_id) _
          (by simpa using h),
        List.any_cons]
      have hb : (((r.miner_id, r.balance) : Int × Nat).1 == row.miner_id) = false := by
        simpa using h
      rw [hb, Bool.false_or]
      exact ih

/-- An unlisted key receives delta 0 from the CASE statement. -/
theorem deltaFind_of_not_mem {rewards : List UpdateReward} {k : Int}
    (h : ∀ r ∈ rewards, r.miner_id ≠ k) : deltaFind rewards k = 0 := by
  unfold deltaFind
  have hn : rewards.find? (fun r => r.miner_id == k) = none :=
    List.find?_eq_none.mpr (fun r hr => by simpa using h r hr)
  rw [hn]
  rfl

/-- With pairwise-distinct keys, a listed pair's key receives exactly
its own delta from the CASE statement. -/
theorem deltaFind_of_mem {rewards : List UpdateReward} {r : UpdateReward}
    (hnd : (rewards.map (fun x => x.miner_id)).Nodup) (hr : r ∈ rewards) :
    deltaFind rewards r.miner_id = r.balance := by
  induction rewards with
  | nil => cases hr
  | cons a rs ih =>
    simp only [List.map_cons, List.nodup_cons] at hnd
    rcases List.mem_cons.mp hr with h | h
    · subst h
      unfold deltaFind
      rw [List.find?_cons_of_pos
        (p := fun x : UpdateReward => x.miner_id == r.miner_id) _ (by simp)]
      rfl
    · have hne : a.miner_id ≠ r.miner_id := by
        intro he
        exact hnd.1 (he ▸ List.mem_map_of_mem (fun x => x.miner_id) h)
      unfold deltaFind
      rw [List.find?_cons_of_neg
        (p := fun x : UpdateReward => x.miner_id == r.miner_id) _
        (by simpa using hne)]
      exact ih hnd.2 h

/-- Unfolding `deltaSum` over a cons cell. -/
theorem deltaSum_cons (r : UpdateReward) (rs : List UpdateReward) (k : Int) :
    deltaSum (r :: rs) k
      = (if r.miner_id = k then r.balance else 0) + deltaSum rs k := by
  unfold deltaSum
  by_cases h : r.miner_id = k <;>
    simp [List.filter_cons, h]

/-- With pairwise-distinct keys the summed sequential delta of a key
coincides with the single CASE-arm delta. -/
theorem deltaSum_eq_deltaFind {rewards : List UpdateReward}
    (hnd : (rewards.map (fun x => x.miner_id)).Nodup) (k : Int) :
    deltaSum rewards k = deltaFind rewards k := by
  induction rewards with
  | nil => rfl
  | cons r rs ih =>
    simp only [List.map_cons, List.nodup_cons] at hnd
    rw [deltaSum_cons]
    by_cases h : r.miner_id = k
    · have hz : deltaSum rs k = 0 := by
        unfold deltaSum
        have hfil : rs.filter (fun x => x.miner_id == k) = [] := by
          rw [List.filter_eq_nil_iff]
          intro x hx
          simp only [beq_iff_eq]
          intro he
          exact hnd.1 (h ▸ he ▸ List.mem_map_of_mem (fun y => y.miner_id) hx)
        rw [hfil]
        rfl
      unfold deltaFind
      rw [List.find?_cons_of_pos
        (p := fun x : UpdateReward => x.miner_id == k) _ (by simpa using h)]
      simp [h, hz]
    · unfold deltaFind
      rw [List.find?_cons_of_neg
        (p := fun x : UpdateReward => x.miner_id == k) _ (by simpa using h)]
      simpa [h] using ih hnd.2

/-- `deltaSum` is invariant under permutation of the delta list. -/
theorem deltaSum_perm {ds ds' : List UpdateReward}
    (h : ds.Perm ds') (k : Int) : deltaSum ds k = deltaSum ds' k := by
  unfold deltaSum
  exact List.Perm.sum_eq
    (List.Perm.map (fun r => r.balance)
      (List.Perm.filter (fun r => r.miner_id == k) h))

/-- Sequentially applying each (key, delta) pair one statement at a
time gives every row the sum of its key's deltas. -/
theorem foldl_apply_single_eq_map (rewards : List UpdateReward)
    (t : List RewardRow) :
    rewards.foldl apply_single_reward t
      = t.map (fun row =>
          { row with balance := row.balance + deltaSum rewards row.miner_id }) := by
  induction rewards generalizing t with
  | nil =>
    simp only [List.foldl_nil]
    exact (List.map_id'' (fun row => rfl) t).symm
  | cons u us ih =>
    simp only [List.foldl_cons]
    rw [ih]
    unfold apply_single_reward
    rw [List.map_map]
    refine List.map_congr_left (fun row _ => ?_)
    simp only [Function.comp]
    by_cases h : u.miner_id = row.miner_id
    · simp [h, deltaSum_cons, Nat.add_assoc]
    · simp [h, deltaSum_cons, fun b => (beq_iff_eq (a := u.miner_id) (b := row.miner_id))]

/-! ### Claim decrements (`decrease_miner_reward`,
`decrease_stakers_rewards`) -/

/-- Modelled from the spec: the `rewards.balance` and
`stake_accounts.rewards_balance` columns are unsigned token-unit
counters, and the schema (the migrations are not under `src/`) makes
the database reject a subtraction that would drive such a column below
zero as an out-of-range statement fault instead of wrapping — the spec
requires that a balance "must never go negative — any decrement
exceeding current balance is a data-integrity fault, not a normal
outcome" and that wraparound is never silently allowed. -/
def unsignedColumnSub (balance dec : Nat) : Option Nat :=
  if dec ≤ balance then some (balance - dec) else none

/-- Row-by-row execution of an UPDATE whose per-row effect may fault:
the statement fails as a whole when any affected row faults. -/
def updateRowsOption {ρ : Type} (f : ρ → Option ρ) : List ρ → Option (List ρ)
  | [] => some []
  | r :: rs =>
    match f r, updateRowsOption f rs with
    | some r2, some rs2 => some (r2 :: rs2)
    | _, _ => none

/-- `decrease_miner_reward`: submits
`UPDATE rewards SET balance = balance - ? WHERE miner_id = ?`.  A
SQL-level fault (here: the out-of-range unsigned subtraction) surfaces
as `QueryFailed`; otherwise the source returns `Ok(())` without
inspecting the row count, so the updated table stands. -/
def decrease_miner_reward (t : List RewardRow) (miner_id : Int)
    (rewards_to_decrease : Nat) :
    Except AppDatabaseError (List RewardRow) :=
  match updateRowsOption (fun r =>
      if r.miner_id == miner_id then
        (unsignedColumnSub r.balance rewards_to_decrease).map
          (fun b => { r with balance := b })
      else some r) t with
  | some t2 => .ok t2
  | none => .error .QueryFailed

/-- `decrease_stakers_rewards`: submits
`UPDATE stake_accounts SET rewards_balance = rewards_balance - ?
WHERE id = ?`, classified exactly like `decrease_miner_reward`. -/
def decrease_stakers_rewards (t : List StakeAccountRow) (staker_id : Int)
    (rewards_to_decrease : Nat) :
    Except AppDatabaseError (List StakeAccountRow) :=
  match updateRowsOption (fun s =>
      if s.id == staker_id then
        (unsignedColumnSub s.rewards_balance rewards_to_decrease).map
          (fun b => { s with rewards_balance := b })
      else some s) t with
  | some t2 => .ok t2
  | none => .error .QueryFailed

/-- A row-wise fallible update succeeds and acts as a plain map when no
row faults. -/
theorem updateRowsOption_eq_some {ρ : Type} {f : ρ → Option ρ}
    {g : ρ → ρ} {t : List ρ} (h : ∀ r ∈ t, f r = some (g r)) :
    updateRowsOption f t = some (t.map g) := by
  induction t with
  | nil => rfl
  | cons r rs ih =>
    unfold updateRowsOption
    rw [h r (List.mem_cons_self r rs), ih (fun x hx => h x (List.mem_cons_of_mem r hx))]
    rfl

/-- A row-wise fallible update fails as a whole when some row faults. -/
theorem updateRowsOption_eq_none {ρ : Type} {f : ρ → Option ρ}
    {t : List ρ} {r : ρ} (hr : r ∈ t) (hf : f r = none) :
    updateRowsOption f t = none := by
  induction t with
  | nil => cases hr
  | cons a rs ih =>
    unfold updateRowsOption
    rcases List.mem_cons.mp hr with h | h
    · subst h
      rw [hf]
    · rw [ih h]
      rcases f a with _ | _ <;> rfl

/-! ### Single-row insert/update outcome classification
(`update_challenge_rewards`, `add_new_pool`,
`signup_user_transaction`)

Each operation is a function of the connection-pool outcome and the
interact result; the interact result (`Except Unit (Except Unit Nat)`)
carries either the statement's affected-row count or a SQL-level
error (outer `.error` = interaction failure). -/

/-- `update_challenge_rewards`: executes
`UPDATE challenges SET rewards_earned = ?, submission_id = ? WHERE
challenge = ?` and fails with `FailedToUpdateRow` when the affected-row
count differs from 1. -/
def update_challenge_rewards (connOk : Bool)
    (res : Except Unit (Except Unit Nat)) : Except AppDatabaseError Unit :=
  if connOk then
    match res with
    | .ok (.ok query) =>
      if query ≠ 1 then .error .FailedToUpdateRow else .ok ()
    | .ok (.error _) => .error .QueryFailed
    | .error _ => .error .InteractionFailed
  else .error .FailedToGetConnectionFromPool

/-- `add_new_pool`: executes
`INSERT INTO pools (authority_pubkey, proof_pubkey) VALUES (?, ?)` and
fails with `FailedToInsertRow` when the affected-row count differs
from 1. -/
def add_new_pool (connOk : Bool)
    (res : Except Unit (Except Unit Nat)) : Except AppDatabaseError Unit :=
  if connOk then
    match res with
    | .ok (.ok query) =>
      if query ≠ 1 then .error .FailedToInsertRow else .ok ()
    | .ok (.error _) => .error .QueryFailed
    | .error _ => .error .InteractionFailed
  else .error .FailedToGetConnectionFromPool

/-- `signup_user_transaction`: runs the signup transaction (miner
insert, miner/pool lookups, rewards insert) and fails with
`FailedToInsertRow` when the transaction's returned row count is 0. -/
def signup_user_transaction (connOk : Bool)
    (res : Except Unit (Except Unit Nat)) : Except AppDatabaseError Unit :=
  if connOk then
    match res with
    | .ok (.ok query) =>
      if query = 0 then .error .FailedToInsertRow else .ok ()
    | .ok (.error _) => .error .QueryFailed
    | .error _ => .error .InteractionFailed
  else .error .FailedToGetConnectionFromPool

/-! ### Nonce lookup (`get_submission_id_with_nonce`) -/

/-- The `ORDER BY id DESC` comparator. -/
def descById (a b : SubmissionRow) : Bool :=
  decide (b.id ≤ a.id)

/-- `get_submission_id_with_nonce`: runs
`SELECT id FROM submissions_2 WHERE nonce = ? ORDER BY id DESC` and
takes the first result (`get_result`); an empty result set is a
not-found query error (`QueryFailed`). -/
def get_submission_id_with_nonce (t : List SubmissionRow) (nonce : Nat) :
    Except AppDatabaseError Int :=
  match (t.filter (fun s => s.nonce == nonce)).mergeSort descById with
  | [] => .error .QueryFailed
  | s :: _ => .ok s.id

/-- `descById` is transitive. -/
theorem descById_trans : ∀ a b c : SubmissionRow,
    descById a b → descById b c → descById a c := by
  intro a b c hab hbc
  simp only [descById, decide_eq_true_eq] at *
  omega

/-- `descById` is total. -/
theorem descById_total : ∀ a b : SubmissionRow,
    descById a b || descById b a := by
  intro a b
  simp only [descById, Bool.or_eq_true, decide_eq_true_eq]
  omega

/-! ### Chain account decoding (`src/ore_utils.rs`)

The layout validation itself (`try_from_bytes` of the `ore_api` /
`steel` crates) is external to this repository; the embedding keeps its
verdict abstract: a fetched account slot records whether the account
was absent, present-but-undecodable, or decoded. -/

/-- A fetched account slot: `none` = account absent; `some none` =
present but its bytes fail the expected binary layout; `some (some v)`
= present and decoding to `v`. -/
abbrev AccountSlot (α : Type) := Option (Option α)

/-- Sequencing of Rust evaluation: a panic aborts everything after
it. -/
def RustOutcome.bind {α β : Type} (x : RustOutcome α)
    (f : α → RustOutcome β) : RustOutcome β :=
  match x with
  | .returns a => f a
  | .panics m => .panics m

/-- A `.returns` value flows into the continuation. -/
theorem RustOutcome.returns_bind {α β : Type} (a : α)
    (f : α → RustOutcome β) : (RustOutcome.returns a).bind f = f a := rfl

/-- The
`if let Some(data) = &datas[i] { Ok(*T::try_from_bytes(data).expect(msg)) } else { Err(()) }`
pattern of `get_proof_and_config_with_busses`: an absent slot yields
`Err(())`; a present slot that fails to decode panics via `expect`. -/
def decodeSlotOrPanic {α : Type} (expectMsg : String) (s : AccountSlot α) :
    RustOutcome (Except Unit α) :=
  match s with
  | none => .returns (.error ())
  | some (some v) => .returns (.ok v)
  | some none => .panics expectMsg

/-- The outcome a slot would produce if decode failure were handled
like absence (used to state what the non-panicking paths return). -/
def slotOutcome {α : Type} (s : AccountSlot α) : Except Unit α :=
  match s with
  | some (some v) => .ok v
  | _ => .error ()

/-- The ten slots of the `get_multiple_accounts` response consumed by
`get_proof_and_config_with_busses`: proof PDA, config address, and the
eight bus addresses, in request order. -/
structure MultiAccountsResponse (P C B : Type) where
  proofData : AccountSlot P
  configData : AccountSlot C
  bus1 : AccountSlot B
  bus2 : AccountSlot B
  bus3 : AccountSlot B
  bus4 : AccountSlot B
  bus5 : AccountSlot B
  bus6 : AccountSlot B
  bus7 : AccountSlot B
  bus8 : AccountSlot B

/-- `get_proof_and_config_with_busses`: a failed batched RPC read
(`datas = none`) yields `(Err(()), Err(()), Err(()))`; otherwise each
slot is decoded in order with the source's `expect` messages (the
`bus8` message repeats "bus1", as in the source). -/
def get_proof_and_config_with_busses {P C B : Type}
    (datas : Option (MultiAccountsResponse P C B)) :
    RustOutcome
      (Except Unit P × Except Unit C × Except Unit (List (Except Unit B))) :=
  match datas with
  | none => .returns (.error (), .error (), .error ())
  | some d =>
    (decodeSlotOrPanic "Failed to parse treasury account" d.proofData).bind
      fun proof =>
    (decodeSlotOrPanic "Failed to parse config account" d.configData).bind
      fun treasury_config =>
    (decodeSlotOrPanic "Failed to parse bus1 account" d.bus1).bind fun b1 =>
    (decodeSlotOrPanic "Failed to parse bus2 account" d.bus2).bind fun b2 =>
    (decodeSlotOrPanic "Failed to parse bus3 account" d.bus3).bind fun b3 =>
    (decodeSlotOrPanic "Failed to parse bus4 account" d.bus4).bind fun b4 =>
    (decodeSlotOrPanic "Failed to parse bus5 account" d.bus5).bind fun b5 =>
    (decodeSlotOrPanic "Failed to parse bus6 account" d.bus6).bind fun b6 =>
    (decodeSlotOrPanic "Failed to parse bus7 account" d.bus7).bind fun b7 =>
    (decodeSlotOrPanic "Failed to parse bus1 account" d.bus8).bind fun b8 =>
    .returns (proof, treasury_config,
      .ok [b1, b2, b3, b4, b5, b6, b7, b8])

/-- No slot of the response is present-but-undecodable. -/
def responseHasNoBadBlob {P C B : Type} :
    Option (MultiAccountsResponse P C B) → Prop
  | none => True
  | some d =>
    d.proofData ≠ some none ∧ d.configData ≠ some none
    ∧ d.bus1 ≠ some none ∧ d.bus2 ≠ some none ∧ d.bus3 ≠ some none
    ∧ d.bus4 ≠ some none ∧ d.bus5 ≠ some none ∧ d.bus6 ≠ some none
    ∧ d.bus7 ≠ some none ∧ d.bus8 ≠ some none

/-- On a slot that is not present-but-undecodable, the decode step
returns that slot's own outcome and cannot panic. -/
theorem decodeSlotOrPanic_of_ok {α : Type} (msg : String)
    (s : AccountSlot α) (h : s ≠ some none) :
    decodeSlotOrPanic msg s = .returns (slotOutcome s) := by
  match s with
  | none => rfl
  | some (some v) => rfl
  | some none => exact absurd rfl h

/-- `get_proof`: a fetch failure and a decode failure both come back as
returned error strings; the function has no panic path. -/
def get_proof {P : Type} (data : Except Unit (Option P)) :
    RustOutcome (Except String P) :=
  .returns (match data with
    | .ok (some proof) => .ok proof
    | .ok none => .error "Failed to parse proof account"
    | .error _ => .error "Failed to get proof account")

/-! ### Boost-multiplier refresh pairing
(`src/systems/cache_update_system.rs`, stats task)

The task requests six accounts — three boost-stake PDAs followed by
three boost PDAs — then sorts each decoded account into `stake_acct`
or `boost_acct` by which layout its bytes decode as (`Stake` tried
first, then `Boost`; an absent or undecodable account is skipped), and
finally builds one `BoostMultiplierData` per stake account by indexing
`boost_acct[index]` positionally. -/

/-- `ore_boost_api::state::Stake` (the field the task reads). -/
structure BoostStakeAcc where
  balance : Nat
deriving DecidableEq

/-- `ore_boost_api::state::Boost` (the fields the task reads). -/
structure BoostAcc where
  mint : String
  total_stake : Nat
  multiplier : Nat
deriving DecidableEq

/-- `BoostMultiplierData`.  The source divides the two balances by
`10^ORE_TOKEN_DECIMALS` into `f64` for display; the embedding keeps
the raw integer amounts, which carry the same information without
floating point. -/
structure BoostMultiplierData where
  boost_mint : String
  staked_balance : Nat
  total_stake_balance : Nat
  multiplier : Nat
deriving DecidableEq

/-- The account-collection loop: each present account is pushed onto
`stake_acct` when its bytes decode as `Stake` (`Sum.inl`, tried first)
or onto `boost_acct` when they decode as `Boost` (`Sum.inr`); absent
(`none`) or undecodable (`some none`) accounts are skipped. -/
def collectStakeAndBoost
    (accounts : List (AccountSlot (BoostStakeAcc ⊕ BoostAcc))) :
    List BoostStakeAcc × List BoostAcc :=
  accounts.foldl (fun acc account =>
    match account with
    | some (some (.inl a)) => (acc.1 ++ [a], acc.2)
    | some (some (.inr a)) => (acc.1, acc.2 ++ [a])
    | _ => acc) ([], [])

/-- The `for (index, stake_a) in stake_acct.iter().enumerate()` loop
starting at `index = i`: each iteration reads `boost_acct[index]`,
panicking when the index is out of bounds. -/
def buildLoop (boost_acct : List BoostAcc) :
    Nat → List BoostStakeAcc → RustOutcome (List BoostMultiplierData)
  | _, [] => .returns []
  | i, stake_a :: rest =>
    match boost_acct.get? i with
    | none => .panics "index out of bounds"
    | some b =>
      match buildLoop boost_acct (i + 1) rest with
      | .returns l =>
        .returns ({ boost_mint := b.mint,
                    staked_balance := stake_a.balance,
                    total_stake_balance := b.total_stake,
                    multiplier := b.multiplier } :: l)
      | .panics m => .panics m

/-- Building the `boost_multiplier_datas` vector from the collected
accounts. -/
def buildBoostMultiplierDatas (stake_acct : List BoostStakeAcc)
    (boost_acct : List BoostAcc) : RustOutcome (List BoostMultiplierData) :=
  buildLoop boost_acct 0 stake_acct

/-- One boost-multiplier refresh computation: a failed RPC read leaves
both vectors empty (the `else` branch only logs); otherwise the
response's accounts are collected and paired positionally. -/
def boost_multiplier_refresh
    (resp : Option (List (AccountSlot (BoostStakeAcc ⊕ BoostAcc)))) :
    RustOutcome (List BoostMultiplierData) :=
  buildBoostMultiplierDatas (collectStakeAndBoost (resp.getD [])).1
    (collectStakeAndBoost (resp.getD [])).2

/-! ### Paginated scans (`get_stake_accounts`, `get_miner_accounts`,
`get_miner_reward_accounts`)

Each scan runs `SELECT * FROM <table> WHERE ... AND id > ? ORDER BY id
ASC LIMIT 500` with a caller-supplied exclusive lower bound. -/

/-- The `ORDER BY id ASC` comparator over a row type with identity
projection `idOf`. -/
def ascById {ρ : Type} (idOf : ρ → Int) (a b : ρ) : Bool :=
  decide (idOf a ≤ idOf b)

/-- `get_stake_accounts`: `SELECT * FROM stake_accounts s WHERE
s.pool_id = ? AND s.id > ? ORDER BY s.id ASC LIMIT 500`. -/
def get_stake_accounts (t : List StakeAccountRow) (pool_id last_id : Int) :
    List StakeAccountRow :=
  ((t.filter (fun s => s.pool_id == pool_id && decide (last_id < s.id))).mergeSort
    (ascById (fun s => s.id))).take 500

/-- `get_miner_accounts`: `SELECT * FROM miners m WHERE m.id > ?
ORDER BY m.id ASC LIMIT 500`. -/
def get_miner_accounts (t : List MinerRow) (last_id : Int) :
    List MinerRow :=
  ((t.filter (fun m => decide (last_id < m.id))).mergeSort
    (ascById (fun m => m.id))).take 500

/-- `get_miner_reward_accounts`: `SELECT * FROM rewards r WHERE
r.id > ? ORDER BY r.id ASC LIMIT 500`. -/
def get_miner_reward_accounts (t : List RewardRow) (last_id : Int) :
    List RewardRow :=
  ((t.filter (fun r => decide (last_id < r.id))).mergeSort
    (ascById (fun r => r.id))).take 500

/-- `ascById` is transitive. -/
theorem ascById_trans {ρ : Type} (idOf : ρ → Int) :
    ∀ a b c : ρ, ascById idOf a b → ascById idOf b c → ascById idOf a c := by
  intro a b c hab hbc
  simp only [ascById, decide_eq_true_eq] at *
  omega

/-- `ascById` is total. -/
theorem ascById_total {ρ : Type} (idOf : ρ → Int) :
    ∀ a b : ρ, ascById idOf a b || ascById idOf b a := by
  intro a b
  simp only [ascById, Bool.or_eq_true, decide_eq_true_eq]
  omega

/-- Rows of a paginated scan come from the table and satisfy the WHERE
filter. -/
theorem scan_mem {ρ : Type} (p : ρ → Bool) (le : ρ → ρ → Bool)
    (n : Nat) (t : List ρ) :
    ∀ x ∈ ((t.filter p).mergeSort le).take n, x ∈ t ∧ p x := by
  intro x hx
  have hx2 := (List.mergeSort_perm (t.filter p) le).subset
    (List.take_subset n _ hx)
  exact List.mem_filter.mp hx2

/-- A paginated scan is in ascending id order. -/
theorem scan_sorted {ρ : Type} (idOf : ρ → Int) (p : ρ → Bool)
    (n : Nat) (t : List ρ) :
    (((t.filter p).mergeSort (ascById idOf)).take n).Pairwise
      (fun a b => idOf a ≤ idOf b) := by
  have hs := List.sorted_mergeSort (ascById_trans idOf) (ascById_total idOf)
    (t.filter p)
  have hp := List.Pairwise.sublist (List.take_sublist n _) hs
  exact hp.imp (fun hab => by simpa [ascById] using hab)

/-- The reward row with id `n + 1` used by the pagination scenario. -/
def rewardRowOfIdx (n : Nat) : RewardRow :=
  { id := (n : Int) + 1, miner_id := 0, balance := 0 }

/-- The spec's pagination scenario table: 1200 reward rows with ids
1..1200. -/
def rewardsTable1200 : List RewardRow :=
  (List.range 1200).map rewardRowOfIdx

/-- Rows with ids 1..500. -/
def rewardsPage1 : List RewardRow :=
  (List.range 500).map rewardRowOfIdx

/-- Rows with ids 501..1000. -/
def rewardsPage2 : List RewardRow :=
  (List.range 500).map (fun n => rewardRowOfIdx (n + 500))

/-- Rows with ids 1001..1200. -/
def rewardsPage3 : List RewardRow :=
  (List.range 200).map (fun n => rewardRowOfIdx (n + 1000))

/-- The scenario table is sorted ascending by id. -/
theorem rewardsTable1200_sorted :
    rewardsTable1200.Pairwise
      (fun a b => ascById (fun r => r.id) a b) := by
  unfold rewardsTable1200
  rw [List.pairwise_map]
  refine (List.pairwise_lt_range 1200).imp ?_
  intro a b hab
  simp only [rewardRowOfIdx, ascById, decide_eq_true_eq]
  omega

/-- On the (already ascending) scenario table a scan is filter-then-
take. -/
theorem rewards_scan_1200 (b : Int) :
    get_miner_reward_accounts rewardsTable1200 b
      = (rewardsTable1200.filter (fun r => decide (b < r.id))).take 500 := by
  unfold get_miner_reward_accounts
  rw [List.mergeSort_of_sorted (rewardsTable1200_sorted.filter _)]

/-- The three pages concatenate back to the whole scenario table:
every row is covered exactly once, no duplicates, no gaps. -/
theorem pages_append_eq :
    rewardsPage1 ++ rewardsPage2 ++ rewardsPage3 = rewardsTable1200 := by
  unfold rewardsPage1 rewardsPage2 rewardsPage3 rewardsTable1200
  have h12 : (1200 : Nat) = 500 + (500 + 200) := rfl
  rw [h12, List.range_add, List.range_add]
  simp only [List.map_append, List.map_map, List.append_assoc,
    Function.comp_def, Nat.add_comm, Nat.add_assoc]
  norm_num
  intro a _
  have h3 : a + 1000 = 500 + (a + 500) := by omega
  rw [h3]

/-! ### Claim theorems -/

/-- C1: For every non-empty list of (miner_id, delta) pairs with
distinct keys, `update_rewards` builds and submits exactly one UPDATE
statement of the CASE-over-keys shape (text `update_rewards_sql`,
semantics `update_rewards_apply`); after it succeeds, each listed
miner's rewards balance equals its old balance plus its delta, and
every row whose key is not in the list is unchanged.  The same batch
primitive `batchCaseUpdate`, parameterized by the per-row expression,
also expresses the overwrite form
(`update_stake_accounts_staked_balance`) and the
increment-both-columns form (`update_stake_accounts_rewards`). -/
theorem claim_C1 (rewards : List UpdateReward) (t : List RewardRow)
    (_hne : rewards ≠ [])
    (hnd : (rewards.map (fun r => r.miner_id)).Nodup) :
    ((update_rewards_apply rewards t).length = t.length
      ∧ ∀ i (hi : i < t.length)
          (hj : i < (update_rewards_apply rewards t).length),
          (∀ r ∈ rewards, r.miner_id = (t.get ⟨i, hi⟩).miner_id →
            (update_rewards_apply rewards t).get ⟨i, hj⟩
              = { t.get ⟨i, hi⟩ with
                  balance := (t.get ⟨i, hi⟩).balance + r.balance })
          ∧ ((∀ r ∈ rewards, r.miner_id ≠ (t.get ⟨i, hi⟩).miner_id) →
            (update_rewards_apply rewards t).get ⟨i, hj⟩ = t.get ⟨i, hi⟩))
    ∧ update_rewards_apply
        = (fun rs => batchCaseUpdate (fun row => row.miner_id)
            (fun row d => { row with balance := row.balance + d })
            (rs.map fun r => (r.miner_id, r.balance)))
    ∧ update_stake_accounts_staked_balance_apply
        = (fun us => batchCaseUpdate (fun row => row.stake_pda)
            (fun row v => { row with staked_balance := v })
            (us.map fun sa => (sa.stake_pda, sa.staked_balance)))
    ∧ update_stake_accounts_rewards_apply
        = (fun us => batchCaseUpdate (fun row => row.stake_pda)
            (fun row d =>
              { row with
                rewards_balance := row.rewards_balance + d
                total_rewards_earned := row.total_rewards_earned + d })
            (us.map fun sa => (sa.stake_pda, sa.rewards_balance))) := by
  refine ⟨⟨?_, ?_⟩, rfl, rfl, rfl⟩
  · rw [update_rewards_apply_eq_map]
    exact List.length_map t _
  · intro i hi hj
    constructor
    · intro r hr hkey
      simp only [List.get_eq_getElem] at hkey
      simp only [update_rewards_apply_eq_map, List.get_eq_getElem,
        List.getElem_map]
      rw [← hkey, deltaFind_of_mem hnd hr]
    · intro hnone
      simp only [List.get_eq_getElem] at hnone
      simp only [update_rewards_apply_eq_map, List.get_eq_getElem,
        List.getElem_map]
      rw [deltaFind_of_not_mem (fun r hr => hnone r hr)]
      rfl

/-- C1 witness: a concrete two-miner batch with distinct keys. -/
theorem claim_C1_witness :
    ((update_rewards_apply [⟨1, 20⟩, ⟨2, 5⟩]
        [⟨1, 1, 100⟩, ⟨2, 2, 50⟩]).length
      = ([⟨1, 1, 100⟩, ⟨2, 2, 50⟩] : List RewardRow).length)
    ∧ update_rewards_apply [⟨1, 20⟩, ⟨2, 5⟩] [⟨1, 1, 100⟩, ⟨2, 2, 50⟩]
        = [⟨1, 1, 120⟩, ⟨2, 2, 55⟩] :=
  ⟨(claim_C1 [⟨1, 20⟩, ⟨2, 5⟩] [⟨1, 1, 100⟩, ⟨2, 2, 50⟩]
      (by decide) (by decide)).1.1,
   by decide⟩

/-- C2: A failed refresh attempt never changes a cache's published
value or its last-updated timestamp: for the blockhash,
last-challenge-submissions, and challenges caches, if the fetch fails,
the snapshot visible to readers afterwards is identical to the snapshot
before the attempt (publish happens only on success). -/
theorem claim_C2 {α β ε₁ ε₂ ε₃ : Type} (encode : β → String)
    (e₁ : ε₁) (e₂ : ε₂) (e₃ : ε₃) (now₁ now₂ now₃ : Nat)
    (cb : CachedItem String) (cs cc : CachedItem α) :
    latestBlockhashAttempt encode (.error e₁) now₁ cb = (cb, true)
    ∧ lastChallengeSubmissionsRefreshStep (.error e₂) now₂ cs = cs
    ∧ challengesRefreshStep (.error e₃) now₃ cc = cc :=
  ⟨rfl, rfl, rfl⟩

/-- C2 witness: concrete failed fetches leave concrete snapshots
untouched. -/
theorem claim_C2_witness :
    latestBlockhashAttempt (fun s : String => s) (.error ()) 7
        ⟨"stale", 3⟩ = (⟨"stale", 3⟩, true)
    ∧ lastChallengeSubmissionsRefreshStep (ε := Unit) (.error ()) 7
        (⟨42, 3⟩ : CachedItem Nat) = ⟨42, 3⟩
    ∧ challengesRefreshStep (ε := Unit) (.error ()) 7
        (⟨42, 3⟩ : CachedItem Nat) = ⟨42, 3⟩ :=
  claim_C2 (fun s : String => s) () () () 7 7 7 ⟨"stale", 3⟩ ⟨42, 3⟩ ⟨42, 3⟩

/-- C3: For every batch delta list with unique keys, applying the batch
once through `update_rewards` produces the same final balances as
applying each (key, delta) pair individually in any order; applying the
same batch twice adds every delta twice (the batch is not idempotent). -/
theorem claim_C3 (ds ds' : List UpdateReward) (t : List RewardRow)
    (hnd : (ds.map (fun r => r.miner_id)).Nodup)
    (hperm : ds.Perm ds') :
    update_rewards_apply ds t = ds'.foldl apply_single_reward t
    ∧ update_rewards_apply ds (update_rewards_apply ds t)
        = t.map (fun row =>
            { row with
              balance := row.balance + 2 * deltaFind ds row.miner_id }) := by
  constructor
  · rw [update_rewards_apply_eq_map, foldl_apply_single_eq_map]
    refine List.map_congr_left (fun row _ => ?_)
    rw [← deltaSum_perm hperm, deltaSum_eq_deltaFind hnd]
  · rw [update_rewards_apply_eq_map, update_rewards_apply_eq_map,
      List.map_map]
    refine List.map_congr_left (fun row _ => ?_)
    simp only [Function.comp]
    have harith : row.balance + deltaFind ds row.miner_id
        + deltaFind ds row.miner_id
        = row.balance + 2 * deltaFind ds row.miner_id := by omega
    simp [harith]

/-- C3 witness: the spec's example — balances {miner 1: 100, miner 2:
50}, delta list [(1, +20), (2, +5)] gives {120, 55} after one
application (equal to sequential application in reversed order) and
{140, 60} after a second. -/
theorem claim_C3_witness :
    (update_rewards_apply [⟨1, 20⟩, ⟨2, 5⟩] [⟨1, 1, 100⟩, ⟨2, 2, 50⟩]
        = ([⟨2, 5⟩, ⟨1, 20⟩] : List UpdateReward).foldl apply_single_reward
            [⟨1, 1, 100⟩, ⟨2, 2, 50⟩])
    ∧ update_rewards_apply [⟨1, 20⟩, ⟨2, 5⟩] [⟨1, 1, 100⟩, ⟨2, 2, 50⟩]
        = [⟨1, 1, 120⟩, ⟨2, 2, 55⟩]
    ∧ update_rewards_apply [⟨1, 20⟩, ⟨2, 5⟩]
        (update_rewards_apply [⟨1, 20⟩, ⟨2, 5⟩] [⟨1, 1, 100⟩, ⟨2, 2, 50⟩])
        = [⟨1, 1, 140⟩, ⟨2, 2, 60⟩] :=
  ⟨(claim_C3 [⟨1, 20⟩, ⟨2, 5⟩] [⟨2, 5⟩, ⟨1, 20⟩] [⟨1, 1, 100⟩, ⟨2, 2, 50⟩]
      (by decide) (by decide)).1,
   by decide, by decide⟩

/-- C6: the claim says every cache's failure-retry delay is strictly
shorter than its refresh interval, in particular shorter than the
blockhash cache's 5-second interval.  The code's blockhash failure
branch sleeps `Duration::from_secs(2000)` — 2000 seconds, 400 times the
interval — even though its own log message announces "Retrying in 2
secs...": the claim (and the log) state the intent, the sleep argument
is the slip. -/
theorem claim_C6 :
    ¬(BLOCKHASH_RETRY_SLEEP_SECS < CACHED_LATEST_BLOCKHASH_UPDATE_INTERVAL)
    ∧ BLOCKHASH_RETRY_SLEEP_SECS = 2000
    ∧ CACHED_LATEST_BLOCKHASH_UPDATE_INTERVAL = 5 := by
  decide

/-- C5: Reward and stake-rewards balances never go negative: for every
call to `decrease_miner_reward` or `decrease_stakers_rewards`, a
decrement exceeding the current balance is treated as a data-integrity
fault (`QueryFailed`, the statement-level out-of-range error) rather
than a normal outcome, and is never silently applied as unsigned
wraparound; a decrement not exceeding the current balance leaves the
balance equal to the old balance minus the decrement. -/
theorem claim_C5 (t : List RewardRow) (ts : List StakeAccountRow)
    (mid sid : Int) (dec decS : Nat) :
    ((∀ r ∈ t, r.miner_id = mid → dec ≤ r.balance) →
      decrease_miner_reward t mid dec
        = .ok (t.map (fun r =>
            if r.miner_id = mid then { r with balance := r.balance - dec }
            else r)))
    ∧ ((∃ r ∈ t, r.miner_id = mid ∧ r.balance < dec) →
      decrease_miner_reward t mid dec = .error .QueryFailed)
    ∧ ((∀ s ∈ ts, s.id = sid → decS ≤ s.rewards_balance) →
      decrease_stakers_rewards ts sid decS
        = .ok (ts.map (fun s =>
            if s.id = sid then
              { s with rewards_balance := s.rewards_balance - decS }
            else s)))
    ∧ ((∃ s ∈ ts, s.id = sid ∧ s.rewards_balance < decS) →
      decrease_stakers_rewards ts sid decS = .error .QueryFailed) := by
  refine ⟨?_, ?_, ?_, ?_⟩
  · intro h
    unfold decrease_miner_reward
    rw [updateRowsOption_eq_some (fun r hr => ?_)]
    by_cases hm : r.miner_id = mid
    · simp [hm, unsignedColumnSub, h r hr hm]
    · simp [hm]
  · rintro ⟨r, hr, hm, hlt⟩
    unfold decrease_miner_reward
    have hf : (if r.miner_id == mid then
        (unsignedColumnSub r.balance dec).map
          (fun b => { r with balance := b })
      else some r) = none := by
      have hnle : ¬(dec ≤ r.balance) := by omega
      simp [hm, unsignedColumnSub, hnle]
    rw [updateRowsOption_eq_none hr hf]
  · intro h
    unfold decrease_stakers_rewards
    rw [updateRowsOption_eq_some (fun s hs => ?_)]
    by_cases hm : s.id = sid
    · simp [hm, unsignedColumnSub, h s hs hm]
    · simp [hm]
  · rintro ⟨s, hs, hm, hlt⟩
    unfold decrease_stakers_rewards
    have hf : (if s.id == sid then
        (unsignedColumnSub s.rewards_balance decS).map
          (fun b => { s with rewards_balance := b })
      else some s) = none := by
      have hnle : ¬(decS ≤ s.rewards_balance) := by omega
      simp [hm, unsignedColumnSub, hnle]
    rw [updateRowsOption_eq_none hs hf]

/-- C5 witness: a 40-unit decrement of a 100-unit balance leaves 60; a
200-unit decrement of a 100-unit balance is a fault, for both tables. -/
theorem claim_C5_witness :
    decrease_miner_reward [⟨1, 1, 100⟩] 1 40 = .ok [⟨1, 1, 60⟩]
    ∧ decrease_miner_reward [⟨1, 1, 100⟩] 1 200 = .error .QueryFailed
    ∧ decrease_stakers_rewards [⟨1, 1, "a", "m", "p", 500, 100, 300⟩] 1 40
        = .ok [⟨1, 1, "a", "m", "p", 500, 60, 300⟩]
    ∧ decrease_stakers_rewards [⟨1, 1, "a", "m", "p", 500, 100, 300⟩] 1 200
        = .error .QueryFailed := by
  have h := claim_C5 [⟨1, 1, 100⟩] [⟨1, 1, "a", "m", "p", 500, 100, 300⟩]
    1 1 40 200
  have h2 := claim_C5 [⟨1, 1, 100⟩] [⟨1, 1, "a", "m", "p", 500, 100, 300⟩]
    1 1 200 40
  exact ⟨(h.1 (by decide)).trans (by rfl),
    h2.2.1 (by decide),
    (h2.2.2.1 (by decide)).trans (by rfl),
    h.2.2.2 (by decide)⟩

/-- C7: For every single-row insert or update in signup
(`signup_user_transaction`), pool creation (`add_new_pool`), and
challenge finalization (`update_challenge_rewards`): if the statement
executes without a SQL error but affects an unexpected number of rows,
the operation returns the explicit outcome `FailedToInsertRow` or
`FailedToUpdateRow`, which is distinct from the `QueryFailed` outcome
returned for SQL-level errors. -/
theorem claim_C7 (n : Nat) :
    (n ≠ 1 → update_challenge_rewards true (.ok (.ok n))
        = .error .FailedToUpdateRow)
    ∧ update_challenge_rewards true (.ok (.error ()))
        = .error .QueryFailed
    ∧ (n ≠ 1 → add_new_pool true (.ok (.ok n))
        = .error .FailedToInsertRow)
    ∧ add_new_pool true (.ok (.error ())) = .error .QueryFailed
    ∧ signup_user_transaction true (.ok (.ok 0))
        = .error .FailedToInsertRow
    ∧ (n ≠ 0 → signup_user_transaction true (.ok (.ok n)) = .ok ())
    ∧ signup_user_transaction true (.ok (.error ()))
        = .error .QueryFailed
    ∧ AppDatabaseError.FailedToUpdateRow ≠ AppDatabaseError.QueryFailed
    ∧ AppDatabaseError.FailedToInsertRow ≠ AppDatabaseError.QueryFailed := by
  refine ⟨?_, rfl, ?_, rfl, rfl, ?_, rfl, by decide, by decide⟩
  · intro h
    simp [update_challenge_rewards, h]
  · intro h
    simp [add_new_pool, h]
  · intro h
    simp [signup_user_transaction, h]

/-- C7 witness: row count 2 on the update/insert paths and 3 on signup. -/
theorem claim_C7_witness :
    (update_challenge_rewards true (.ok (.ok 2))
        = .error .FailedToUpdateRow)
    ∧ (add_new_pool true (.ok (.ok 2)) = .error .FailedToInsertRow)
    ∧ signup_user_transaction true (.ok (.ok 1)) = .ok ()
    ∧ update_challenge_rewards true (.ok (.error ()))
        = .error .QueryFailed := by
  have h := claim_C7 2
  exact ⟨h.1 (by decide), h.2.2.1 (by decide),
    (claim_C7 1).2.2.2.2.2.1 (by decide), h.2.1⟩

/-- C8: For every nonce, `get_submission_id_with_nonce` returns the id
of the most recent submission bearing that nonce: when multiple
submissions share the nonce, the one with the highest id is returned (a
nonce maps to at most one submission id in the lookup's result). -/
theorem claim_C8 (t : List SubmissionRow) (nonce : Nat)
    (r : SubmissionRow) (hr : r ∈ t) (hn : r.nonce = nonce) :
    ∃ i : Int, get_submission_id_with_nonce t nonce = .ok i
      ∧ (∃ s ∈ t, s.nonce = nonce ∧ s.id = i)
      ∧ ∀ s ∈ t, s.nonce = nonce → s.id ≤ i := by
  have hrl : r ∈ t.filter (fun s => s.nonce == nonce) :=
    List.mem_filter.mpr ⟨hr, by simpa using hn⟩
  have hperm := List.mergeSort_perm
    (t.filter (fun s => s.nonce == nonce)) descById
  have hsorted := List.sorted_mergeSort descById_trans descById_total
    (t.filter (fun s => s.nonce == nonce))
  have hrs : r ∈ (t.filter (fun s => s.nonce == nonce)).mergeSort descById :=
    hperm.mem_iff.mpr hrl
  cases hcons : (t.filter (fun s => s.nonce == nonce)).mergeSort descById with
  | nil =>
    rw [hcons] at hrs
    cases hrs
  | cons s rest =>
    refine ⟨s.id, ?_, ?_, ?_⟩
    · unfold get_submission_id_with_nonce
      rw [hcons]
    · have hs : s ∈ t.filter (fun x => x.nonce == nonce) := by
        rw [hcons] at hperm
        exact hperm.subset (List.mem_cons_self s rest)
      rcases List.mem_filter.mp hs with ⟨hst, hsn⟩
      exact ⟨s, hst, by simpa using hsn, rfl⟩
    · intro s2 hs2 hn2
      have hs2l : s2 ∈ t.filter (fun x => x.nonce == nonce) :=
        List.mem_filter.mpr ⟨hs2, by simpa using hn2⟩
      have hs2sorted : s2 ∈ s :: rest := by
        rw [← hcons]
        exact hperm.mem_iff.mpr hs2l
      rcases List.mem_cons.mp hs2sorted with h | h
      · exact h ▸ le_refl _
      · rw [hcons] at hsorted
        have hle := (List.pairwise_cons.mp hsorted).1 s2 h
        simpa [descById] using hle

/-- C8 witness: nonce 9 occurs on submissions with ids 7 and 5; the
lookup returns 7, the highest id. -/
theorem claim_C8_witness :
    (∃ i : Int,
      get_submission_id_with_nonce [⟨7, 9⟩, ⟨5, 9⟩, ⟨6, 3⟩] 9 = .ok i
      ∧ (∃ s ∈ ([⟨7, 9⟩, ⟨5, 9⟩, ⟨6, 3⟩] : List SubmissionRow),
          s.nonce = 9 ∧ s.id = i)
      ∧ ∀ s ∈ ([⟨7, 9⟩, ⟨5, 9⟩, ⟨6, 3⟩] : List SubmissionRow),
          s.nonce = 9 → s.id ≤ i)
    ∧ get_submission_id_with_nonce [⟨7, 9⟩, ⟨5, 9⟩, ⟨6, 3⟩] 9 = .ok 7 :=
  ⟨claim_C8 [⟨7, 9⟩, ⟨5, 9⟩, ⟨6, 3⟩] 9 ⟨5, 9⟩ (by decide) rfl, by
    unfold get_submission_id_with_nonce
    rw [List.mergeSort_of_sorted (by decide)]
    rfl⟩

/-- C4 counterexample: a batched read whose proof slot is present but
fails layout decoding panics (the source's `expect`) instead of
returning a decode-failure outcome, refuting "never panics". -/
theorem claim_C4_counterexample :
    get_proof_and_config_with_busses (P := Unit) (C := Unit) (B := Unit)
      (some { proofData := some none, configData := some (some ()),
              bus1 := some (some ()), bus2 := some (some ()),
              bus3 := some (some ()), bus4 := some (some ()),
              bus5 := some (some ()), bus6 := some (some ()),
              bus7 := some (some ()), bus8 := some (some ()) })
      = RustOutcome.panics "Failed to parse treasury account" := rfl

/-- C4 (amended): in the batched multi-account read, an ABSENT account
yields a per-account `Err(())` outcome determined by its own slot alone
— one account's absence does not prevent the others from yielding
their results — and a failed batch RPC yields `Err` for every
component; the single-account fetcher `get_proof` returns a classified
outcome on every input (fetch failure and decode failure are returned
error strings) and never panics.  However, a PRESENT account whose
bytes fail the expected layout makes the batched read panic via
`expect` (see the counterexample) rather than produce a decode-failure
outcome. -/
theorem claim_C4 {P C B : Type} (d : MultiAccountsResponse P C B)
    (hnb : responseHasNoBadBlob (some d)) :
    (get_proof_and_config_with_busses (some d)
      = .returns (slotOutcome d.proofData, slotOutcome d.configData,
          .ok [slotOutcome d.bus1, slotOutcome d.bus2, slotOutcome d.bus3,
               slotOutcome d.bus4, slotOutcome d.bus5, slotOutcome d.bus6,
               slotOutcome d.bus7, slotOutcome d.bus8]))
    ∧ get_proof_and_config_with_busses (P := P) (C := C) (B := B) none
        = .returns (.error (), .error (), .error ())
    ∧ ∀ data : Except Unit (Option P), ∃ v, get_proof data = .returns v := by
  obtain ⟨h1, h2, h3, h4, h5, h6, h7, h8, h9, h10⟩ := hnb
  refine ⟨?_, rfl, fun data => ⟨_, rfl⟩⟩
  show (decodeSlotOrPanic "Failed to parse treasury account" d.proofData).bind _ = _
  rw [decodeSlotOrPanic_of_ok _ _ h1, RustOutcome.returns_bind,
    decodeSlotOrPanic_of_ok _ _ h2, RustOutcome.returns_bind,
    decodeSlotOrPanic_of_ok _ _ h3, RustOutcome.returns_bind,
    decodeSlotOrPanic_of_ok _ _ h4, RustOutcome.returns_bind,
    decodeSlotOrPanic_of_ok _ _ h5, RustOutcome.returns_bind,
    decodeSlotOrPanic_of_ok _ _ h6, RustOutcome.returns_bind,
    decodeSlotOrPanic_of_ok _ _ h7, RustOutcome.returns_bind,
    decodeSlotOrPanic_of_ok _ _ h8, RustOutcome.returns_bind,
    decodeSlotOrPanic_of_ok _ _ h9, RustOutcome.returns_bind,
    decodeSlotOrPanic_of_ok _ _ h10, RustOutcome.returns_bind]

/-- C4 witness: a response where every other account is absent decodes
componentwise, and `get_proof` classifies a decode failure without
panicking. -/
theorem claim_C4_witness :
    (get_proof_and_config_with_busses (P := Unit) (C := Unit) (B := Unit)
      (some { proofData := some (some ()), configData := none,
              bus1 := some (some ()), bus2 := none,
              bus3 := some (some ()), bus4 := none,
              bus5 := some (some ()), bus6 := none,
              bus7 := some (some ()), bus8 := none })
      = .returns (.ok (), .error (),
          .ok [.ok (), .error (), .ok (), .error (), .ok (), .error (),
               .ok (), .error ()]))
    ∧ ∃ v, get_proof (P := Unit) (.ok none) = .returns v := by
  have h := claim_C4 (P := Unit) (C := Unit) (B := Unit)
    { proofData := some (some ()), configData := none,
      bus1 := some (some ()), bus2 := none,
      bus3 := some (some ()), bus4 := none,
      bus5 := some (some ()), bus6 := none,
      bus7 := some (some ()), bus8 := none }
    ⟨by decide, by decide, by decide, by decide, by decide, by decide,
     by decide, by decide, by decide, by decide⟩
  exact ⟨h.1.trans (by rfl), h.2.2 (.ok none)⟩

/-- Inner induction for C10: starting the enumerate loop at `index = i`
with enough boost accounts left, the loop returns one positional
pairing per stake account and cannot hit an out-of-bounds index. -/
theorem buildLoop_returns (boost_acct : List BoostAcc)
    (stake : List BoostStakeAcc) (i : Nat)
    (h : i + stake.length ≤ boost_acct.length) :
    ∃ l, buildLoop boost_acct i stake = .returns l
      ∧ l.length = stake.length
      ∧ ∀ j (hj : j < stake.length), ∃ s2 b,
          stake.get? j = some s2
          ∧ boost_acct.get? (i + j) = some b
          ∧ l.get? j = some
              { boost_mint := b.mint, staked_balance := s2.balance,
                total_stake_balance := b.total_stake,
                multiplier := b.multiplier } := by
  induction stake generalizing i with
  | nil =>
    exact ⟨[], rfl, rfl, fun j hj => absurd hj (by simp)⟩
  | cons s rest ih =>
    have hib : i < boost_acct.length := by
      simp only [List.length_cons] at h
      omega
    obtain ⟨l, hl, hlen, hget⟩ := ih (i + 1)
      (by simp only [List.length_cons] at h ⊢; omega)
    refine ⟨{ boost_mint := (boost_acct.get ⟨i, hib⟩).mint,
              staked_balance := s.balance,
              total_stake_balance := (boost_acct.get ⟨i, hib⟩).total_stake,
              multiplier := (boost_acct.get ⟨i, hib⟩).multiplier } :: l,
      ?_, ?_, ?_⟩
    · unfold buildLoop
      rw [List.get?_eq_get hib, hl]
    · simp [hlen]
    · intro j hj
      match j with
      | 0 =>
        refine ⟨s, boost_acct.get ⟨i, hib⟩, rfl, ?_, rfl⟩
        simpa using List.get?_eq_get hib
      | j2 + 1 =>
        have hj2 : j2 < rest.length := by
          simp only [List.length_cons] at hj
          omega
        obtain ⟨s2, b, hs2, hb2, hl2⟩ := hget j2 hj2
        refine ⟨s2, b, by simpa using hs2, ?_, by simpa using hl2⟩
        have harith : i + (j2 + 1) = i + 1 + j2 := by omega
        rw [harith]
        exact hb2

/-- C10 counterexample: a response in which the three stake slots
decode as `Stake` but the three boost slots are absent makes the
pairing loop index `boost_acct[0]` into an empty list — an
out-of-bounds panic — refuting "never panics with an out-of-bounds
access" for every RPC response. -/
theorem claim_C10_counterexample :
    boost_multiplier_refresh
      (some [some (some (.inl ⟨100⟩)), some (some (.inl ⟨200⟩)),
             some (some (.inl ⟨300⟩)), none, none, none])
      = RustOutcome.panics "index out of bounds" := rfl

/-- C10 (amended): decoded stake and boost accounts are paired
positionally, and when the number of decoded stake accounts does not
exceed the number of decoded boost accounts — in particular for the
fully-successful response where the three stake slots and three boost
slots all decode — every index used into the boost-account list is in
bounds, the build cannot panic, and entry `j` pairs stake account `j`
with boost account `j` (carrying that boost's own mint).  A response
where more stake accounts than boost accounts decode (e.g. an absent
or undecodable boost account) makes the loop index out of bounds: see
the counterexample. -/
theorem claim_C10 (stake_acct : List BoostStakeAcc)
    (boost_acct : List BoostAcc)
    (resp : Option (List (AccountSlot (BoostStakeAcc ⊕ BoostAcc))))
    (h : stake_acct.length ≤ boost_acct.length) :
    (∃ l, buildBoostMultiplierDatas stake_acct boost_acct = .returns l
      ∧ l.length = stake_acct.length
      ∧ ∀ j (hj : j < stake_acct.length), ∃ s2 b,
          stake_acct.get? j = some s2
          ∧ boost_acct.get? j = some b
          ∧ l.get? j = some
              { boost_mint := b.mint, staked_balance := s2.balance,
                total_stake_balance := b.total_stake,
                multiplier := b.multiplier })
    ∧ boost_multiplier_refresh resp
        = buildBoostMultiplierDatas
            (collectStakeAndBoost (resp.getD [])).1
            (collectStakeAndBoost (resp.getD [])).2 := by
  constructor
  · obtain ⟨l, hl, hlen, hget⟩ :=
      buildLoop_returns boost_acct stake_acct 0 (by omega)
    exact ⟨l, hl, hlen, fun j hj => by simpa using hget j hj⟩
  · rfl

/-- C10 witness: one decoded stake account and one decoded boost
account pair up positionally without a panic. -/
theorem claim_C10_witness :
    (∃ l, buildBoostMultiplierDatas [⟨100⟩] [⟨"mintA", 500, 2⟩]
        = .returns l
      ∧ l.length = 1
      ∧ ∀ j (hj : j < 1), ∃ s2 b,
          ([⟨100⟩] : List BoostStakeAcc).get? j = some s2
          ∧ ([⟨"mintA", 500, 2⟩] : List BoostAcc).get? j = some b
          ∧ l.get? j = some
              { boost_mint := b.mint, staked_balance := s2.balance,
                total_stake_balance := b.total_stake,
                multiplier := b.multiplier })
    ∧ buildBoostMultiplierDatas [⟨100⟩] [⟨"mintA", 500, 2⟩]
        = .returns [⟨"mintA", 100, 500, 2⟩] :=
  ⟨(claim_C10 [⟨100⟩] [⟨"mintA", 500, 2⟩] none (by decide)).1, rfl⟩

/-- C9: Every paginated scan (`get_stake_accounts`,
`get_miner_accounts`, `get_miner_reward_accounts`) returns only rows
whose id is strictly greater than the caller-supplied lower bound (and
matching the WHERE filter), in ascending id order, and at most 500
rows; for a table of 1200 matching rows, three successive scans each
feeding back the previous page's last id return 500, 500, and 200 rows
respectively, together covering every row exactly once with no
duplicates and no gaps (their concatenation is the whole table). -/
theorem claim_C9 (ts : List StakeAccountRow) (tm : List MinerRow)
    (tr : List RewardRow) (pid sb mb rb : Int) :
    (∀ x ∈ get_stake_accounts ts pid sb,
        x ∈ ts ∧ x.pool_id = pid ∧ sb < x.id)
    ∧ (get_stake_accounts ts pid sb).Pairwise (fun a b => a.id ≤ b.id)
    ∧ (get_stake_accounts ts pid sb).length ≤ 500
    ∧ (∀ x ∈ get_miner_accounts tm mb, x ∈ tm ∧ mb < x.id)
    ∧ (get_miner_accounts tm mb).Pairwise (fun a b => a.id ≤ b.id)
    ∧ (get_miner_accounts tm mb).length ≤ 500
    ∧ (∀ x ∈ get_miner_reward_accounts tr rb, x ∈ tr ∧ rb < x.id)
    ∧ (get_miner_reward_accounts tr rb).Pairwise (fun a b => a.id ≤ b.id)
    ∧ (get_miner_reward_accounts tr rb).length ≤ 500
    ∧ get_miner_reward_accounts rewardsTable1200 0 = rewardsPage1
    ∧ (rewardsPage1.map (fun r => r.id)).getLast? = some 500
    ∧ get_miner_reward_accounts rewardsTable1200 500 = rewardsPage2
    ∧ (rewardsPage2.map (fun r => r.id)).getLast? = some 1000
    ∧ get_miner_reward_accounts rewardsTable1200 1000 = rewardsPage3
    ∧ rewardsPage1.length = 500
    ∧ rewardsPage2.length = 500
    ∧ rewardsPage3.length = 200
    ∧ rewardsPage1 ++ rewardsPage2 ++ rewardsPage3 = rewardsTable1200 := by
  refine ⟨?_, scan_sorted _ _ _ _, List.length_take_le _ _,
    ?_, scan_sorted _ _ _ _, List.length_take_le _ _,
    ?_, scan_sorted _ _ _ _, List.length_take_le _ _,
    ?_, by decide, ?_, by decide, ?_,
    by decide, by decide, by decide, pages_append_eq⟩
  · intro x hx
    obtain ⟨h1, h2⟩ := scan_mem _ _ 500 ts x hx
    simp only [Bool.and_eq_true, beq_iff_eq, decide_eq_true_eq] at h2
    exact ⟨h1, h2.1, h2.2⟩
  · intro x hx
    obtain ⟨h1, h2⟩ := scan_mem _ _ 500 tm x hx
    simp only [decide_eq_true_eq] at h2
    exact ⟨h1, h2⟩
  · intro x hx
    obtain ⟨h1, h2⟩ := scan_mem _ _ 500 tr x hx
    simp only [decide_eq_true_eq] at h2
    exact ⟨h1, h2⟩
  · rw [rewards_scan_1200]
    decide
  · rw [rewards_scan_1200]
    decide
  · rw [rewards_scan_1200]
    decide

/-- C9 witness: the first page of the 1200-row scenario has 500 rows,
and its first row (id 1) indeed comes from the table with id above the
lower bound 0. -/
theorem claim_C9_witness :
    (rewardRowOfIdx 0 ∈ rewardsTable1200 ∧ (0 : Int) < (rewardRowOfIdx 0).id)
    ∧ get_miner_reward_accounts rewardsTable1200 0 = rewardsPage1
    ∧ rewardsPage1.length = 500 := by
  have h := claim_C9 [] [] rewardsTable1200 0 0 0 0
  refine ⟨?_, h.2.2.2.2.2.2.2.2.2.1,
    h.2.2.2.2.2.2.2.2.2.2.2.2.2.2.1⟩
  have hmem : rewardRowOfIdx 0 ∈ get_miner_reward_accounts rewardsTable1200 0 := by
    rw [h.2.2.2.2.2.2.2.2.2.1]
    decide
  have hx := h.2.2.2.2.2.2.1 (rewardRowOfIdx 0) hmem
  exact ⟨hx.1, hx.2⟩

end OreHQServer
